import Mathlib

/-!
Verification of `flickr_data_extractor.py`.

Shallow embedding of the Flickr data extractor:

* Calendar dates are modelled as `Int` ordinal day numbers
  (`datetime.date.toordinal`); `date + timedelta` adds only the
  timedelta's `days` attribute, i.e. the floor of the duration in days
  (CPython `date.__add__` uses `other.days`).
* Durations (`datetime.timedelta`) are modelled as `Int` microsecond
  counts, the resolution CPython stores.  `timedelta.__mul__(float)`
  computes `_divide_and_round(usec * a, b)` where `(a, b)` is
  `float.as_integer_ratio()` and `_divide_and_round` rounds half to
  even.  The binary64 value of `0.85` is exactly
  `7656119366529843 / 2^53`; the binary64 value of `1.25` is exactly
  `5 / 4`.
* The remote API (`flickrapi`) is a stub parameter: a probe function
  `Int → Int → Nat` giving the reported total count for a date window
  (deterministic per window) and a page-fetch function returning the
  rows of one page request.
* Frames (`pandas`) are lists of records.
-/

namespace Flickr

/-- One retrieved record (a row of the frame): an id, the raw epoch
`dateupload` field and the `datetaken` string. -/
structure Row where
  photoId : Nat
  dateupload : Nat
  datetaken : String
  deriving DecidableEq

/-- One page request issued by `Flickr_Data_Retriever.getData`:
`flickr.photos.search(page=page, per_page=250, ...)`. -/
structure PageReq where
  page : Nat
  per_page : Nat
  deriving DecidableEq

/-- Observable events of one `Flickr_Grid_Manager.collectData` run.
Windows are pairs of ordinal days `(start, end)`; widths are
microsecond counts. -/
inductive Ev where
  /-- Probe event (`setTotalObs`): a count probe (page 1, per_page 1) of a window. -/
  | probeE (a b : Int) (c : Nat)
  /-- Grow event: `increaseTimeStepAndSetNewBatchDates` changed the window. -/
  | growE (a b a2 b2 : Int)
  /-- Shrink event: `reduceTimeStepAndSetNewBatchDates` changed the window. -/
  | shrinkE (a b a2 b2 : Int)
  /-- Fetch event: `searchPhotos` was called for a window whose probed count is `c`. -/
  | fetchE (a b : Int) (c : Nat)
  /-- Page event: one page request of a fetch. -/
  | pageE (a b : Int) (p : Nat)
  /-- Advance event, step 5 of `collectData`: from fetched window `(pa, pb)` with
  width `d` microseconds to the next window `(na, nb)`. -/
  | advanceE (pa pb : Int) (d : Int) (na nb : Int)
  deriving DecidableEq

def Ev.isProbe : Ev → Bool
  | .probeE _ _ _ => true
  | _ => false

def Ev.isGrow : Ev → Bool
  | .growE _ _ _ _ => true
  | _ => false

def Ev.isShrink : Ev → Bool
  | .shrinkE _ _ _ _ => true
  | _ => false

def Ev.isFetch : Ev → Bool
  | .fetchE _ _ _ => true
  | _ => false

def Ev.isPage : Ev → Bool
  | .pageE _ _ _ => true
  | _ => false

def Ev.isAdvance : Ev → Bool
  | .advanceE _ _ _ _ _ => true
  | _ => false

/-- Mutable state of one `Flickr_Grid_Manager`: the absolute end of the
date range (`dates_abs[1]`), the current batch window `dates_batch`,
the current width `delta_days` in microseconds, and the current probed
count `batch_obs` (kept equal to `FR_batch.total_obs`). -/
structure St where
  absEnd : Int
  batchStart : Int
  batchEnd : Int
  delta : Int
  obs : Nat
  deriving DecidableEq

/-- Microseconds per day (`timedelta(days=1)` in microseconds). -/
def usPerDay : Int := 86400000000

/-- CPython `timedelta.days` of a duration of `us` microseconds: CPython
normalizes with floor division.  For the positive divisor `usPerDay`,
Python floor divmod coincides with Euclidean divmod, which is what
`Int./` denotes. -/
def tdDays (us : Int) : Int := us / usPerDay

/-- CPython `datetime._divide_and_round a b`: quotient of `a` by `b`
rounded half to even.  All call sites here have `b > 0`, where Python's
floor divmod equals the Euclidean divmod of `Int./` and `Int.%`. -/
def divRound (a b : Int) : Int :=
  if b < 2 * (a % b) ∨ (2 * (a % b) = b ∧ (a / b) % 2 = 1) then a / b + 1 else a / b

/-- CPython `timedelta * 0.85` on a duration of `us` microseconds:
`0.85.as_integer_ratio() == (7656119366529843, 9007199254740992)`
(the binary64 nearest 0.85 is `7656119366529843 / 2^53`). -/
def floatMul85 (us : Int) : Int := divRound (us * 7656119366529843) 9007199254740992

/-- CPython `timedelta * 1.25` on a duration of `us` microseconds:
`1.25.as_integer_ratio() == (5, 4)` (1.25 is exact in binary64). -/
def floatMul125 (us : Int) : Int := divRound (us * 5) 4

/-- Method `Flickr_Grid_Manager.reduceTimeStepAndSetNewBatchDates`:
`delta_days *= 0.85`; `dates_batch = (dates_batch[0],
dates_batch[0] + delta_days)` where date plus timedelta adds
`delta_days.days` whole days. -/
def reduceTimeStepAndSetNewBatchDates (s : St) : St :=
  let d := floatMul85 s.delta
  { s with delta := d, batchEnd := s.batchStart + tdDays d }

/-- Method `Flickr_Grid_Manager.increaseTimeStepAndSetNewBatchDates`:
`delta_days *= 1.25`; `dates_batch = (dates_batch[0],
dates_batch[0] + delta_days)`. -/
def increaseTimeStepAndSetNewBatchDates (s : St) : St :=
  let d := floatMul125 s.delta
  { s with delta := d, batchEnd := s.batchStart + tdDays d }

/-- Step 2 of `collectData`:
`if self.batch_obs < 3000 and self.batch_obs > 0:` increase the
timestep once and re-probe (`updateBatchAndTotals`). -/
def growPhase (probe : Int → Int → Nat) (s : St) : List Ev × St :=
  if s.obs < 3000 ∧ s.obs > 0 then
    let s1 := increaseTimeStepAndSetNewBatchDates s
    let c := probe s1.batchStart s1.batchEnd
    ([Ev.growE s.batchStart s.batchEnd s1.batchStart s1.batchEnd,
      Ev.probeE s1.batchStart s1.batchEnd c],
     { s1 with obs := c })
  else ([], s)

/-- Step 3 of `collectData`: `while self.batch_obs > 4000:` reduce the
timestep and re-probe.  The `while` loop is given explicit fuel; `none`
models non-termination within the fuel. -/
def shrinkLoop (probe : Int → Int → Nat) : Nat → St → List Ev × Option St
  | 0, s => ([], if s.obs > 4000 then none else some s)
  | fuel + 1, s =>
    if s.obs > 4000 then
      let s1 := reduceTimeStepAndSetNewBatchDates s
      let c := probe s1.batchStart s1.batchEnd
      let s2 := { s1 with obs := c }
      let rest := shrinkLoop probe fuel s2
      (Ev.shrinkE s.batchStart s.batchEnd s1.batchStart s1.batchEnd ::
        Ev.probeE s1.batchStart s1.batchEnd c :: rest.1, rest.2)
    else ([], some s)

/-- Method `Flickr_Data_Retriever.getData(page)`: issues
`flickr.photos.search(page=page, per_page=250, ...)`. -/
def getDataReq (page : Nat) : PageReq := ⟨page, 250⟩

/-- Method `Flickr_Data_Retriever.searchPhotos`: `pages = ceil(total_obs/250)`
(exact for the integer counts involved); the page requests
`getData(1), ..., getData(pages)` in order, and the returned rows
flattened in that order (`[entry for row in data for entry in row]`).
`api` is the stubbed remote search, mapping one page request to its
rows. -/
def searchPhotos (api : PageReq → List Row) (total_obs : Nat) : List PageReq × List Row :=
  let pages := (total_obs + 249) / 250
  let reqs := (List.range' 1 pages).map getDataReq
  (reqs, reqs.flatMap api)

/-- Steps 2-6 of the `while True:` loop of
`Flickr_Grid_Manager.collectData`, with explicit fuel for the outer
loop and for each inner shrink loop.  Returns the event trace of the
run (also for runs cut off by fuel) and, when the loop reached its
`break`, the concatenated fetched rows.
`probe` stubs `setTotalObs` for a window; `fp` stubs the paged search
for a window. -/
def loopRun (probe : Int → Int → Nat) (fp : Int → Int → PageReq → List Row) :
    Nat → Nat → St → List Ev × Option (List Row)
  | 0, _, _ => ([], none)
  | fuel + 1, sf, s =>
    let g := growPhase probe s
    match shrinkLoop probe sf g.2 with
    | (sevs, none) => (g.1 ++ sevs, none)
    | (sevs, some s2) =>
      let sp := searchPhotos (fp s2.batchStart s2.batchEnd) s2.obs
      let pevs := sp.1.map (fun r => Ev.pageE s2.batchStart s2.batchEnd r.page)
      let na := s2.batchEnd - 1
      let nb := s2.batchEnd + tdDays s2.delta
      let evs1 := g.1 ++ sevs ++ (Ev.fetchE s2.batchStart s2.batchEnd s2.obs :: pevs)
        ++ [Ev.advanceE s2.batchStart s2.batchEnd s2.delta na nb]
      if na > s2.absEnd ∨ s2.obs = 0 then
        (evs1, some sp.2)
      else
        let c := probe na nb
        let rest := loopRun probe fp fuel sf
          { s2 with batchStart := na, batchEnd := nb, obs := c }
        (evs1 ++ Ev.probeE na nb c :: rest.1, rest.2.map (fun rs => sp.2 ++ rs))

/-- The post-processed rows of one grid cell: the source returns the
frame untouched (no sorting, no dedup, no derived columns) when it has
zero rows, and otherwise a frame with the `dateupload` column rewritten
and `year`/`month`/`day` columns added. -/
structure OutRow where
  photoId : Nat
  dateupload : String
  datetaken : String
  year : String
  month : String
  day : String
  deriving DecidableEq

/-- Result of `collectData` after post-processing: `raw` when the
`data_grid.shape[0] > 0` guard was false (frame returned unchanged),
`processed` otherwise. -/
inductive CellResult where
  | raw (rows : List Row)
  | processed (rows : List OutRow)
  deriving DecidableEq

/-- Model of `drop_duplicates` (full-row identity, keep the first occurrence). -/
def dropDupAux : List Row → List Row → List Row
  | _, [] => []
  | seen, r :: rs =>
    if r ∈ seen then dropDupAux seen rs else r :: dropDupAux (r :: seen) rs

def dropDuplicates (l : List Row) : List Row := dropDupAux [] l

/-- The derived columns of one row: `dateupload` rewritten through
`datetime.fromtimestamp(int(x)).strftime(...)` (modelled by the
timezone-dependent formatter `fmt`), `year = x[0:4]`,
`month = x[5:7]`, `day = x[8:10]` of `datetaken`. -/
def deriveRow (fmt : Nat → String) (r : Row) : OutRow :=
  ⟨r.photoId, fmt r.dateupload, r.datetaken,
    r.datetaken.take 4, (r.datetaken.drop 5).take 2, (r.datetaken.drop 8).take 2⟩

/-- Post-processing of the cell's accumulated rows
(`collectData`, section `# 6. Post-process`): only when the frame has
at least one row it is sorted by `datetaken`, deduplicated, and given
the derived columns. -/
def postProcess (fmt : Nat → String) (rows : List Row) : CellResult :=
  if rows.length > 0 then
    CellResult.processed
      ((dropDuplicates
        (rows.mergeSort (fun a b => a.datetaken ≤ b.datetaken))).map (deriveRow fmt))
  else CellResult.raw rows

/-- Full run: `Flickr_Grid_Manager` construction (initial probe over the full
range `(d0, d1)`, `delta_days = d1 - d0` whole days) followed by
`collectData`. -/
def collectData (probe : Int → Int → Nat) (fp : Int → Int → PageReq → List Row)
    (fmt : Nat → String) (fuel sf : Nat) (d0 d1 : Int) : List Ev × Option CellResult :=
  let c0 := probe d0 d1
  let s0 : St := ⟨d1, d0, d1, (d1 - d0) * usPerDay, c0⟩
  let r := loopRun probe fp fuel sf s0
  (Ev.probeE d0 d1 c0 :: r.1, r.2.map (postProcess fmt))

/-- The controller invariant: `batch_obs` always equals the stub's
reported count for the current batch window (`setTotalObs` runs at
construction and at every `updateBatchAndTotals`). -/
def Inv (probe : Int → Int → Nat) (s : St) : Prop :=
  s.obs = probe s.batchStart s.batchEnd

/-- The fetched windows of a trace, with their probed counts, in fetch
order. -/
def fetchList (evs : List Ev) : List (Int × Int × Nat) :=
  evs.filterMap (fun e => match e with
    | .fetchE a b c => some (a, b, c)
    | _ => none)

/-- A bounding box `[x0, y0, x1, y1]`; the coordinates are the exact
rational values of the binary64 floats the program holds. -/
structure BBoxQ where
  x0 : ℚ
  y0 : ℚ
  x1 : ℚ
  y1 : ℚ
  deriving DecidableEq

/-- Python `range(n)` over integers (empty for `n ≤ 0`). -/
def intRange (n : ℤ) : List ℤ := (List.range n.toNat).map (fun k : ℕ => (k : ℤ))

/-- Round a rational to the nearest integer, ties to even (the IEEE-754
rounding of a scaled significand). -/
def roundHalfEven (q : ℚ) : ℤ :=
  if 1 / 2 < q - ⌊q⌋ then ⌊q⌋ + 1
  else if q - ⌊q⌋ < 1 / 2 then ⌊q⌋
  else if ⌊q⌋ % 2 = 0 then ⌊q⌋ else ⌊q⌋ + 1

/-- Binary64 rounding of a positive rational: scale by
`2 ^ (Int.log 2 q - 52)` so the scaled value lies in `[2^52, 2^53)`
(a 53-bit significand), round it to the nearest integer with ties to
even, and scale back. -/
def flPos (q : ℚ) : ℚ :=
  ((roundHalfEven (q / 2 ^ (Int.log 2 q - 52)) : ℤ) : ℚ) * 2 ^ (Int.log 2 q - 52)

/-- IEEE-754 binary64 round-to-nearest, ties-to-even, as the exact
rational value of the rounded float.  The exponent range is unbounded:
this coincides with binary64 wherever no overflow or subnormal
underflow occurs, which holds for every value arising in the claims'
scope (ordinary coordinates and small segment counts; likewise the
implicit int-to-float conversions of loop indices and of `n` are exact
below `2^53`). -/
def fl (q : ℚ) : ℚ := if q = 0 then 0 else if q < 0 then -flPos (-q) else flPos q

/-- The infinitely-precise (ideal) cell of the partition at grid
position `(i, j)`: the comprehension's corner formula with exact
arithmetic. -/
def cellAt (b : BBoxQ) (dx dy : ℚ) (i j : ℤ) : BBoxQ :=
  ⟨b.x0 + i * dx, b.y0 + j * dy, b.x0 + i * dx + dx, b.y0 + j * dy + dy⟩

/-- The cell the program computes at grid position `(i, j)`:
`[x0 + i*dx, y0 + j*dy, x0 + i*dx + dx, y0 + j*dy + dy]` with every
binary64 operation correctly rounded (`i*dx` first, then the left
associated sums, as Python evaluates them). -/
def cellAtF (b : BBoxQ) (dx dy : ℚ) (i j : ℤ) : BBoxQ :=
  ⟨fl (b.x0 + fl ((i : ℚ) * dx)), fl (b.y0 + fl ((j : ℚ) * dy)),
   fl (fl (b.x0 + fl ((i : ℚ) * dx)) + dx), fl (fl (b.y0 + fl ((j : ℚ) * dy)) + dy)⟩

/-- Function `divide_bbox(bbox_list, n)`: computes `dx = (x1-x0)/n`,
`dy = (y1-y0)/n` in binary64 (raising `ZeroDivisionError` when
`n == 0`, modelled as `none`) and returns the comprehension
`[[x0+i*dx, y0+j*dy, x0+i*dx+dx, y0+j*dy+dy] for j in range(n) for i in range(n)]`,
each arithmetic operation correctly rounded to binary64.  No input
validation is performed. -/
def divide_bbox (b : BBoxQ) (n : ℤ) : Option (List BBoxQ) :=
  if n = 0 then none
  else
    let dx := fl (fl (b.x1 - b.x0) / (n : ℚ))
    let dy := fl (fl (b.y1 - b.y0) / (n : ℚ))
    some ((intRange n).flatMap (fun j => (intRange n).map (fun i => cellAtF b dx dy i j)))

/-- The infinitely-precise counterpart of `divide_bbox`'s comprehension
(the spec's idealization): the same cell grid with every operation
exact. -/
def divide_bbox_ideal (b : BBoxQ) (n : ℤ) : List BBoxQ :=
  (intRange n).flatMap (fun j => (intRange n).map
    (fun i => cellAt b ((b.x1 - b.x0) / (n : ℚ)) ((b.y1 - b.y0) / (n : ℚ)) i j))

/-! ### Helper lemmas -/

lemma divRound_half (a b : Int) (hb : 0 < b) : |2 * (divRound a b * b - a)| ≤ b := by
  have h0 : 0 ≤ a % b := Int.emod_nonneg a (by omega)
  have h1 : a % b < b := Int.emod_lt_of_pos a hb
  have h : b * (a / b) + a % b = a := Int.ediv_add_emod a b
  rw [divRound]
  split
  · rename_i hc
    rw [abs_le]
    rcases hc with hc | hc
    · constructor <;> linarith
    · constructor <;> linarith [hc.1]
  · rename_i hc
    rw [not_or, not_lt] at hc
    rw [abs_le]
    constructor <;> linarith [hc.1]

lemma intRange_nonpos {n : ℤ} (h : n ≤ 0) : intRange n = [] := by
  simp [intRange, Int.toNat_of_nonpos h]

lemma length_intRange (n : ℤ) : (intRange n).length = n.toNat := by
  rw [intRange, List.length_map, List.length_range]

lemma mem_intRange {n i : ℤ} : i ∈ intRange n ↔ 0 ≤ i ∧ i < n := by
  simp only [intRange, List.mem_map, List.mem_range]
  constructor
  · rintro ⟨a, ha, rfl⟩
    omega
  · rintro ⟨h0, h1⟩
    exact ⟨i.toNat, by omega, by omega⟩

lemma sum_map_const {α : Type} (l : List α) (k : ℕ) :
    (l.map (fun _ => k)).sum = l.length * k := by
  induction l with
  | nil => simp
  | cons x xs ih => simp [ih, Nat.succ_mul, Nat.add_comm]

lemma length_sq_flatMap (n : ℤ) (f : ℤ → ℤ → BBoxQ) :
    ((intRange n).flatMap (fun j => (intRange n).map (fun i => f i j))).length
      = n.toNat * n.toNat := by
  rw [List.length_flatMap]
  have hm : (List.map (List.length ∘ fun j => (intRange n).map (fun i => f i j))
      (intRange n)) = (intRange n).map (fun _ => n.toNat) := by
    simp [Function.comp_def, length_intRange]
  rw [hm, sum_map_const, length_intRange]

lemma divide_bbox_length {b : BBoxQ} {n : ℤ} (hn : 0 < n) :
    ∃ cs, divide_bbox b n = some cs ∧ cs.length = n.toNat * n.toNat :=
  ⟨_, by rw [divide_bbox, if_neg (by omega)], length_sq_flatMap n _⟩

lemma growPhase_batchStart (probe : Int → Int → Nat) (s : St) :
    (growPhase probe s).2.batchStart = s.batchStart := by
  rw [growPhase]
  split <;> rfl

lemma growPhase_inv (probe : Int → Int → Nat) (s : St) (h : Inv probe s) :
    Inv probe (growPhase probe s).2 := by
  rw [growPhase]
  split
  · rfl
  · exact h

lemma growPhase_events (probe : Int → Int → Nat) (s : St) :
    ∀ e ∈ (growPhase probe s).1, e.isFetch = false ∧ e.isPage = false ∧
      e.isAdvance = false := by
  rw [growPhase]
  split
  · intro e he
    simp only [List.mem_cons, List.not_mem_nil, or_false] at he
    rcases he with rfl | rfl <;> exact ⟨rfl, rfl, rfl⟩
  · intro e he
    simp at he

lemma shrinkLoop_not_high (probe : Int → Int → Nat) (sf : Nat) (s : St)
    (h : ¬ s.obs > 4000) : shrinkLoop probe sf s = ([], some s) := by
  cases sf <;> simp [shrinkLoop, h]

lemma shrinkLoop_some (probe : Int → Int → Nat) : ∀ {sf : Nat} {s s2 : St},
    (shrinkLoop probe sf s).2 = some s2 → Inv probe s →
    Inv probe s2 ∧ s2.obs ≤ 4000 ∧ s2.batchStart = s.batchStart := by
  intro sf
  induction sf with
  | zero =>
    intro s s2 h hinv
    rw [shrinkLoop] at h
    dsimp only at h
    split at h
    · exact absurd h (by simp)
    · obtain rfl : s = s2 := Option.some_inj.mp h
      rename_i hc
      exact ⟨hinv, by omega, rfl⟩
  | succ sf ih =>
    intro s s2 h hinv
    rw [shrinkLoop] at h
    split at h
    · dsimp only at h
      obtain ⟨h1, h2, h3⟩ := ih h rfl
      exact ⟨h1, h2, h3.trans rfl⟩
    · dsimp only at h
      obtain rfl : s = s2 := Option.some_inj.mp h
      rename_i hc
      exact ⟨hinv, by omega, rfl⟩

lemma shrinkLoop_events (probe : Int → Int → Nat) : ∀ (sf : Nat) (s : St),
    ∀ e ∈ (shrinkLoop probe sf s).1, e.isFetch = false ∧ e.isPage = false ∧
      e.isAdvance = false ∧ e.isGrow = false := by
  intro sf
  induction sf with
  | zero =>
    intro s e he
    rw [shrinkLoop] at he
    simp at he
  | succ sf ih =>
    intro s e he
    rw [shrinkLoop] at he
    split at he
    · simp only [List.mem_cons] at he
      rcases he with rfl | rfl | he
      · exact ⟨rfl, rfl, rfl, rfl⟩
      · exact ⟨rfl, rfl, rfl, rfl⟩
      · exact ih _ e he
    · simp at he

lemma loopRun_zero (probe : Int → Int → Nat) (fp : Int → Int → PageReq → List Row)
    (sf : Nat) (s : St) : loopRun probe fp 0 sf s = ([], none) := rfl

lemma loopRun_succ_none (probe : Int → Int → Nat) (fp : Int → Int → PageReq → List Row)
    (fuel sf : Nat) (s : St) (sevs : List Ev)
    (h : shrinkLoop probe sf (growPhase probe s).2 = (sevs, none)) :
    loopRun probe fp (fuel + 1) sf s = ((growPhase probe s).1 ++ sevs, none) := by
  rw [loopRun, h]

lemma loopRun_succ_break (probe : Int → Int → Nat) (fp : Int → Int → PageReq → List Row)
    (fuel sf : Nat) (s : St) (sevs : List Ev) (s2 : St)
    (h : shrinkLoop probe sf (growPhase probe s).2 = (sevs, some s2))
    (hbr : s2.batchEnd - 1 > s2.absEnd ∨ s2.obs = 0) :
    loopRun probe fp (fuel + 1) sf s =
      ((growPhase probe s).1 ++ sevs ++
        (Ev.fetchE s2.batchStart s2.batchEnd s2.obs ::
          (searchPhotos (fp s2.batchStart s2.batchEnd) s2.obs).1.map
            (fun r => Ev.pageE s2.batchStart s2.batchEnd r.page)) ++
        [Ev.advanceE s2.batchStart s2.batchEnd s2.delta (s2.batchEnd - 1)
          (s2.batchEnd + tdDays s2.delta)],
       some (searchPhotos (fp s2.batchStart s2.batchEnd) s2.obs).2) := by
  rw [loopRun, h]
  simp only [if_pos hbr]

lemma loopRun_succ_cont (probe : Int → Int → Nat) (fp : Int → Int → PageReq → List Row)
    (fuel sf : Nat) (s : St) (sevs : List Ev) (s2 : St)
    (h : shrinkLoop probe sf (growPhase probe s).2 = (sevs, some s2))
    (hbr : ¬(s2.batchEnd - 1 > s2.absEnd ∨ s2.obs = 0)) :
    loopRun probe fp (fuel + 1) sf s =
      ((growPhase probe s).1 ++ sevs ++
        (Ev.fetchE s2.batchStart s2.batchEnd s2.obs ::
          (searchPhotos (fp s2.batchStart s2.batchEnd) s2.obs).1.map
            (fun r => Ev.pageE s2.batchStart s2.batchEnd r.page)) ++
        [Ev.advanceE s2.batchStart s2.batchEnd s2.delta (s2.batchEnd - 1)
          (s2.batchEnd + tdDays s2.delta)] ++
        Ev.probeE (s2.batchEnd - 1) (s2.batchEnd + tdDays s2.delta)
          (probe (s2.batchEnd - 1) (s2.batchEnd + tdDays s2.delta)) ::
        (loopRun probe fp fuel sf
          { s2 with
            batchStart := s2.batchEnd - 1
            batchEnd := s2.batchEnd + tdDays s2.delta
            obs := probe (s2.batchEnd - 1) (s2.batchEnd + tdDays s2.delta) }).1,
       (loopRun probe fp fuel sf
          { s2 with
            batchStart := s2.batchEnd - 1
            batchEnd := s2.batchEnd + tdDays s2.delta
            obs := probe (s2.batchEnd - 1) (s2.batchEnd + tdDays s2.delta) }).2.map
         (fun rs => (searchPhotos (fp s2.batchStart s2.batchEnd) s2.obs).2 ++ rs)) := by
  rw [loopRun, h]
  simp only [if_neg hbr]

lemma loopRun_fetch_inv (probe : Int → Int → Nat) (fp : Int → Int → PageReq → List Row) :
    ∀ (fuel sf : Nat) (s : St) (a b : Int) (c : Nat),
    Inv probe s → Ev.fetchE a b c ∈ (loopRun probe fp fuel sf s).1 →
    c = probe a b ∧ c ≤ 4000 := by
  intro fuel
  induction fuel with
  | zero =>
    intro sf s a b c _ hm
    rw [loopRun_zero] at hm
    simp at hm
  | succ fuel ih =>
    intro sf s a b c hinv hm
    rcases hsh : shrinkLoop probe sf (growPhase probe s).2 with ⟨sevs, _ | s2⟩
    · rw [loopRun_succ_none probe fp fuel sf s sevs hsh] at hm
      rcases List.mem_append.mp hm with hm | hm
      · have := (growPhase_events probe s _ hm).1
        simp [Ev.isFetch] at this
      · have hsevs : (shrinkLoop probe sf (growPhase probe s).2).1 = sevs := by rw [hsh]
        have := (shrinkLoop_events probe sf (growPhase probe s).2 _ (hsevs ▸ hm)).1
        simp [Ev.isFetch] at this
    · obtain ⟨hinv2, hle, -⟩ := shrinkLoop_some probe (by rw [hsh])
        (growPhase_inv probe s hinv)
      have hsevs : (shrinkLoop probe sf (growPhase probe s).2).1 = sevs := by rw [hsh]
      by_cases hbr : s2.batchEnd - 1 > s2.absEnd ∨ s2.obs = 0
      · rw [loopRun_succ_break probe fp fuel sf s sevs s2 hsh hbr] at hm
        simp only [List.mem_append, List.mem_cons, List.mem_map, List.mem_singleton] at hm
        rcases hm with ((hm | hm) | hm | ⟨x, -, hm⟩) | hm
        · have := (growPhase_events probe s _ hm).1
          simp [Ev.isFetch] at this
        · have := (shrinkLoop_events probe sf (growPhase probe s).2 _ (hsevs ▸ hm)).1
          simp [Ev.isFetch] at this
        · obtain ⟨rfl, rfl, rfl⟩ := Ev.fetchE.inj hm.symm
          exact ⟨hinv2, hle⟩
        · exact absurd hm (by simp)
        · exact absurd hm (by simp)
      · rw [loopRun_succ_cont probe fp fuel sf s sevs s2 hsh hbr] at hm
        simp only [List.mem_append, List.mem_cons, List.mem_map, List.mem_singleton] at hm
        rcases hm with (((hm | hm) | hm | ⟨x, -, hm⟩) | hm) | hm | hm
        · have := (growPhase_events probe s _ hm).1
          simp [Ev.isFetch] at this
        · have := (shrinkLoop_events probe sf (growPhase probe s).2 _ (hsevs ▸ hm)).1
          simp [Ev.isFetch] at this
        · obtain ⟨rfl, rfl, rfl⟩ := Ev.fetchE.inj hm.symm
          exact ⟨hinv2, hle⟩
        · exact absurd hm (by simp)
        · exact absurd hm (by simp)
        · exact absurd hm (by simp)
        · refine ih sf _ a b c ?_ hm
          rfl

lemma shrinkLoop_batchStart (probe : Int → Int → Nat) : ∀ {sf : Nat} {s s2 : St},
    (shrinkLoop probe sf s).2 = some s2 → s2.batchStart = s.batchStart := by
  intro sf
  induction sf with
  | zero =>
    intro s s2 h
    rw [shrinkLoop] at h
    dsimp only at h
    split at h
    · exact absurd h (by simp)
    · obtain rfl : s = s2 := Option.some_inj.mp h
      rfl
  | succ sf ih =>
    intro s s2 h
    rw [shrinkLoop] at h
    split at h
    · dsimp only at h
      exact (ih h).trans rfl
    · dsimp only at h
      obtain rfl : s = s2 := Option.some_inj.mp h
      rfl

lemma fetchList_nil_of_no_fetch {l : List Ev} (h : ∀ e ∈ l, e.isFetch = false) :
    fetchList l = [] := by
  rw [fetchList, List.filterMap_eq_nil_iff]
  intro e he
  cases e <;> first
    | rfl
    | exact absurd (h _ he) (by simp [Ev.isFetch])

lemma fetchList_append (l1 l2 : List Ev) :
    fetchList (l1 ++ l2) = fetchList l1 ++ fetchList l2 := by
  rw [fetchList, fetchList, fetchList, List.filterMap_append]

lemma fetchList_pages {a b : Int} {reqs : List PageReq} :
    fetchList (reqs.map (fun r => Ev.pageE a b r.page)) = [] :=
  fetchList_nil_of_no_fetch (by
    intro e he
    obtain ⟨r, -, rfl⟩ := List.mem_map.mp he
    rfl)

lemma loopRun_fetchList_break (probe : Int → Int → Nat)
    (fp : Int → Int → PageReq → List Row) (fuel sf : Nat) (s : St) (sevs : List Ev)
    (s2 : St) (h : shrinkLoop probe sf (growPhase probe s).2 = (sevs, some s2))
    (hbr : s2.batchEnd - 1 > s2.absEnd ∨ s2.obs = 0) :
    fetchList (loopRun probe fp (fuel + 1) sf s).1
      = [(s2.batchStart, s2.batchEnd, s2.obs)] := by
  rw [loopRun_succ_break probe fp fuel sf s sevs s2 h hbr]
  dsimp only
  rw [fetchList_append, fetchList_append, fetchList_append]
  rw [fetchList_nil_of_no_fetch (fun e he => (growPhase_events probe s e he).1)]
  rw [fetchList_nil_of_no_fetch (fun e he => (shrinkLoop_events probe sf
    (growPhase probe s).2 e (by rw [h]; exact he)).1)]
  rw [show fetchList (Ev.fetchE s2.batchStart s2.batchEnd s2.obs ::
      (searchPhotos (fp s2.batchStart s2.batchEnd) s2.obs).1.map
        (fun r => Ev.pageE s2.batchStart s2.batchEnd r.page))
    = (s2.batchStart, s2.batchEnd, s2.obs) ::
      fetchList ((searchPhotos (fp s2.batchStart s2.batchEnd) s2.obs).1.map
        (fun r => Ev.pageE s2.batchStart s2.batchEnd r.page)) from rfl]
  rw [fetchList_pages, fetchList_nil_of_no_fetch (by
    intro e he
    simp only [List.mem_singleton] at he
    subst he
    rfl)]
  rfl

lemma loopRun_fetchList_cont (probe : Int → Int → Nat)
    (fp : Int → Int → PageReq → List Row) (fuel sf : Nat) (s : St) (sevs : List Ev)
    (s2 : St) (h : shrinkLoop probe sf (growPhase probe s).2 = (sevs, some s2))
    (hbr : ¬(s2.batchEnd - 1 > s2.absEnd ∨ s2.obs = 0)) :
    fetchList (loopRun probe fp (fuel + 1) sf s).1
      = (s2.batchStart, s2.batchEnd, s2.obs) ::
        fetchList (loopRun probe fp fuel sf
          { s2 with
            batchStart := s2.batchEnd - 1
            batchEnd := s2.batchEnd + tdDays s2.delta
            obs := probe (s2.batchEnd - 1) (s2.batchEnd + tdDays s2.delta) }).1 := by
  rw [loopRun_succ_cont probe fp fuel sf s sevs s2 h hbr]
  dsimp only
  rw [fetchList_append, fetchList_append, fetchList_append, fetchList_append]
  rw [fetchList_nil_of_no_fetch (fun e he => (growPhase_events probe s e he).1)]
  rw [fetchList_nil_of_no_fetch (fun e he => (shrinkLoop_events probe sf
    (growPhase probe s).2 e (by rw [h]; exact he)).1)]
  rw [show fetchList (Ev.fetchE s2.batchStart s2.batchEnd s2.obs ::
      (searchPhotos (fp s2.batchStart s2.batchEnd) s2.obs).1.map
        (fun r => Ev.pageE s2.batchStart s2.batchEnd r.page))
    = (s2.batchStart, s2.batchEnd, s2.obs) ::
      fetchList ((searchPhotos (fp s2.batchStart s2.batchEnd) s2.obs).1.map
        (fun r => Ev.pageE s2.batchStart s2.batchEnd r.page)) from rfl]
  rw [fetchList_pages, fetchList_nil_of_no_fetch (by
    intro e he
    simp only [List.mem_singleton] at he
    subst he
    rfl)]
  rfl

lemma loopRun_fetchList_head (probe : Int → Int → Nat)
    (fp : Int → Int → PageReq → List Row) :
    ∀ (fuel sf : Nat) (s : St) (x : Int × Int × Nat),
    (fetchList (loopRun probe fp fuel sf s).1).head? = some x → x.1 = s.batchStart := by
  intro fuel sf s x hx
  cases fuel with
  | zero =>
    rw [loopRun_zero] at hx
    simp [fetchList] at hx
  | succ fuel =>
    rcases hsh : shrinkLoop probe sf (growPhase probe s).2 with ⟨sevs, _ | s2⟩
    · rw [loopRun_succ_none probe fp fuel sf s sevs hsh, fetchList_append,
        fetchList_nil_of_no_fetch (fun e he => (growPhase_events probe s e he).1),
        fetchList_nil_of_no_fetch (fun e he => (shrinkLoop_events probe sf
          (growPhase probe s).2 e (by rw [hsh]; exact he)).1)] at hx
      simp at hx
    · have hbs : s2.batchStart = s.batchStart :=
        (shrinkLoop_batchStart probe (by rw [hsh])).trans (growPhase_batchStart probe s)
      by_cases hbr : s2.batchEnd - 1 > s2.absEnd ∨ s2.obs = 0
      · rw [loopRun_fetchList_break probe fp fuel sf s sevs s2 hsh hbr] at hx
        obtain rfl : (s2.batchStart, s2.batchEnd, s2.obs) = x := by
          simpa using hx
        exact hbs
      · rw [loopRun_fetchList_cont probe fp fuel sf s sevs s2 hsh hbr] at hx
        obtain rfl : (s2.batchStart, s2.batchEnd, s2.obs) = x := by
          simpa using hx
        exact hbs

lemma loopRun_fetch_chain (probe : Int → Int → Nat)
    (fp : Int → Int → PageReq → List Row) :
    ∀ (fuel sf : Nat) (s : St),
    List.Chain' (fun p q : Int × Int × Nat => q.1 ≤ p.2.1)
      (fetchList (loopRun probe fp fuel sf s).1) := by
  intro fuel
  induction fuel with
  | zero =>
    intro sf s
    rw [loopRun_zero]
    simp [fetchList]
  | succ fuel ih =>
    intro sf s
    rcases hsh : shrinkLoop probe sf (growPhase probe s).2 with ⟨sevs, _ | s2⟩
    · rw [loopRun_succ_none probe fp fuel sf s sevs hsh, fetchList_append,
        fetchList_nil_of_no_fetch (fun e he => (growPhase_events probe s e he).1),
        fetchList_nil_of_no_fetch (fun e he => (shrinkLoop_events probe sf
          (growPhase probe s).2 e (by rw [hsh]; exact he)).1)]
      simp
    · by_cases hbr : s2.batchEnd - 1 > s2.absEnd ∨ s2.obs = 0
      · rw [loopRun_fetchList_break probe fp fuel sf s sevs s2 hsh hbr]
        simp
      · rw [loopRun_fetchList_cont probe fp fuel sf s sevs s2 hsh hbr]
        refine List.chain'_cons'.mpr ⟨?_, ih sf _⟩
        intro y hy
        have := loopRun_fetchList_head probe fp fuel sf _ y hy
        rw [this]
        dsimp only
        omega

lemma loopRun_advance_shape (probe : Int → Int → Nat)
    (fp : Int → Int → PageReq → List Row) :
    ∀ (fuel sf : Nat) (s : St) (pa pb d na nb : Int),
    Ev.advanceE pa pb d na nb ∈ (loopRun probe fp fuel sf s).1 →
    na = pb - 1 ∧ nb = pb + tdDays d := by
  intro fuel
  induction fuel with
  | zero =>
    intro sf s pa pb d na nb hm
    rw [loopRun_zero] at hm
    simp at hm
  | succ fuel ih =>
    intro sf s pa pb d na nb hm
    rcases hsh : shrinkLoop probe sf (growPhase probe s).2 with ⟨sevs, _ | s2⟩
    · rw [loopRun_succ_none probe fp fuel sf s sevs hsh] at hm
      rcases List.mem_append.mp hm with hm | hm
      · have := (growPhase_events probe s _ hm).2.2
        simp [Ev.isAdvance] at this
      · have hsevs : (shrinkLoop probe sf (growPhase probe s).2).1 = sevs := by rw [hsh]
        have := (shrinkLoop_events probe sf (growPhase probe s).2 _ (hsevs ▸ hm)).2.2.1
        simp [Ev.isAdvance] at this
    · have hsevs : (shrinkLoop probe sf (growPhase probe s).2).1 = sevs := by rw [hsh]
      by_cases hbr : s2.batchEnd - 1 > s2.absEnd ∨ s2.obs = 0
      · rw [loopRun_succ_break probe fp fuel sf s sevs s2 hsh hbr] at hm
        simp only [List.mem_append, List.mem_cons, List.mem_map, List.mem_singleton] at hm
        rcases hm with ((hm | hm) | hm | ⟨x, -, hm⟩) | hm | hm
        · have := (growPhase_events probe s _ hm).2.2
          simp [Ev.isAdvance] at this
        · have := (shrinkLoop_events probe sf (growPhase probe s).2 _ (hsevs ▸ hm)).2.2.1
          simp [Ev.isAdvance] at this
        · exact absurd hm (by simp)
        · exact absurd hm (by simp)
        · obtain ⟨rfl, rfl, rfl, rfl, rfl⟩ := Ev.advanceE.inj hm.symm
          exact ⟨rfl, rfl⟩
        · simp at hm
      · rw [loopRun_succ_cont probe fp fuel sf s sevs s2 hsh hbr] at hm
        simp only [List.mem_append, List.mem_cons, List.mem_map, List.mem_singleton] at hm
        rcases hm with (((hm | hm) | hm | ⟨x, -, hm⟩) | hm | hm) | hm | hm
        · have := (growPhase_events probe s _ hm).2.2
          simp [Ev.isAdvance] at this
        · have := (shrinkLoop_events probe sf (growPhase probe s).2 _ (hsevs ▸ hm)).2.2.1
          simp [Ev.isAdvance] at this
        · exact absurd hm (by simp)
        · exact absurd hm (by simp)
        · obtain ⟨rfl, rfl, rfl, rfl, rfl⟩ := Ev.advanceE.inj hm.symm
          exact ⟨rfl, rfl⟩
        · simp at hm
        · exact absurd hm (by simp)
        · exact ih sf _ pa pb d na nb hm

lemma mem_sq_flatMap {n : ℤ} {c : BBoxQ} {f : ℤ → ℤ → BBoxQ} :
    (c ∈ (intRange n).flatMap (fun j => (intRange n).map (fun i => f i j))) ↔
      ∃ i j : ℤ, (0 ≤ i ∧ i < n) ∧ (0 ≤ j ∧ j < n) ∧ c = f i j := by
  simp only [List.mem_flatMap, List.mem_map, mem_intRange]
  constructor
  · rintro ⟨j, hj, i, hi, rfl⟩
    exact ⟨i, j, hi, hj, rfl⟩
  · rintro ⟨i, j, hi, hj, rfl⟩
    exact ⟨j, hj, i, hi, rfl⟩

lemma cover1d (x0 x1 x : ℚ) (n : ℤ) (hn : 1 ≤ n) (hlt : x0 < x1)
    (h1 : x0 ≤ x) (h2 : x ≤ x1) :
    ∃ i : ℤ, 0 ≤ i ∧ i < n ∧ x0 + i * ((x1 - x0) / (n : ℚ)) ≤ x ∧
      x ≤ x0 + i * ((x1 - x0) / (n : ℚ)) + (x1 - x0) / (n : ℚ) := by
  have hnQ : (0 : ℚ) < (n : ℚ) := by exact_mod_cast (by omega : (0 : ℤ) < n)
  set dx := (x1 - x0) / (n : ℚ) with hdxdef
  have hdx : 0 < dx := div_pos (by linarith) hnQ
  have hndx : (n : ℚ) * dx = x1 - x0 := mul_div_cancel₀ _ (ne_of_gt hnQ)
  set t := (x - x0) / dx with htdef
  have ht0 : 0 ≤ t := div_nonneg (by linarith) hdx.le
  have htmul : t * dx = x - x0 := div_mul_cancel₀ _ (ne_of_gt hdx)
  have htn : t ≤ (n : ℚ) := by
    rw [htdef, div_le_iff₀ hdx]
    linarith
  refine ⟨min (n - 1) ⌊t⌋, le_min (by omega) (Int.floor_nonneg.mpr ht0), ?_, ?_, ?_⟩
  · have := min_le_left (n - 1) ⌊t⌋
    omega
  · have hk : ((min (n - 1) ⌊t⌋ : ℤ) : ℚ) ≤ t := by
      calc ((min (n - 1) ⌊t⌋ : ℤ) : ℚ) ≤ ((⌊t⌋ : ℤ) : ℚ) := by
            exact_mod_cast min_le_right (n - 1) ⌊t⌋
        _ ≤ t := Int.floor_le t
    linarith [mul_le_mul_of_nonneg_right hk hdx.le, htmul]
  · have hk1 : t ≤ ((min (n - 1) ⌊t⌋ : ℤ) : ℚ) + 1 := by
      rcases le_or_lt ⌊t⌋ (n - 1) with h | h
      · rw [min_eq_right h]
        exact (Int.lt_floor_add_one t).le
      · rw [min_eq_left h.le]
        push_cast
        linarith
    linarith [mul_le_mul_of_nonneg_right hk1 hdx.le, htmul]

/-! ### Rounding lemmas for the binary64 model -/

lemma roundHalfEven_abs_le (q : ℚ) : |(roundHalfEven q : ℚ) - q| ≤ 1 / 2 := by
  have h0 : ((⌊q⌋ : ℤ) : ℚ) ≤ q := Int.floor_le q
  have h1 : q < ((⌊q⌋ : ℤ) : ℚ) + 1 := Int.lt_floor_add_one q
  rw [roundHalfEven]
  split_ifs with h2 h3 h4
  · rw [abs_le]
    constructor <;> push_cast <;> linarith
  · rw [abs_le]
    rw [not_lt] at h2
    constructor <;> linarith
  · rw [abs_le]
    rw [not_lt] at h2 h3
    constructor <;> linarith
  · rw [abs_le]
    rw [not_lt] at h2 h3
    constructor <;> push_cast <;> linarith

lemma roundHalfEven_intCast (m : ℤ) : roundHalfEven ((m : ℤ) : ℚ) = m := by
  rw [roundHalfEven, Int.floor_intCast]
  norm_num

lemma int_log2_eq {r : ℚ} {e : ℤ} (hr : 0 < r) (h1 : (2 : ℚ) ^ e ≤ r)
    (h2 : r < (2 : ℚ) ^ (e + 1)) : Int.log 2 r = e := by
  have ha : e ≤ Int.log 2 r := by
    rw [← Int.zpow_le_iff_le_log (by norm_num) hr]
    exact_mod_cast h1
  have hb : Int.log 2 r < e + 1 := by
    rw [← Int.lt_zpow_iff_log_lt (by norm_num) hr]
    exact_mod_cast h2
  omega

lemma flPos_error {q : ℚ} (hq : 0 < q) : |flPos q - q| ≤ q * 2 ^ (-(53 : ℤ)) := by
  have hp : (0 : ℚ) < 2 ^ (Int.log 2 q - 52) := zpow_pos (by norm_num) _
  have hle : (2 : ℚ) ^ (Int.log 2 q - 52 + 52) ≤ q := by
    have h := Int.zpow_log_le_self (b := 2) (by norm_num) hq
    rw [show Int.log 2 q - 52 + 52 = Int.log 2 q from by ring]
    exact_mod_cast h
  have hkey : flPos q - q =
      (((roundHalfEven (q / 2 ^ (Int.log 2 q - 52)) : ℤ) : ℚ)
        - q / 2 ^ (Int.log 2 q - 52)) * 2 ^ (Int.log 2 q - 52) := by
    rw [flPos]
    field_simp
  rw [hkey, abs_mul, abs_of_pos hp]
  have hstep := mul_le_mul_of_nonneg_right
    (roundHalfEven_abs_le (q / 2 ^ (Int.log 2 q - 52))) hp.le
  refine hstep.trans ?_
  have heq : (2 : ℚ) ^ (Int.log 2 q - 52 + 52) * 2 ^ (-(53 : ℤ))
      = 1 / 2 * 2 ^ (Int.log 2 q - 52) := by
    rw [← zpow_add₀ (two_ne_zero (α := ℚ)),
      show Int.log 2 q - 52 + 52 + -53 = Int.log 2 q - 52 + -1 from by ring,
      zpow_add₀ (two_ne_zero (α := ℚ))]
    norm_num
    ring
  calc 1 / 2 * 2 ^ (Int.log 2 q - 52)
      = (2 : ℚ) ^ (Int.log 2 q - 52 + 52) * 2 ^ (-(53 : ℤ)) := heq.symm
    _ ≤ q * 2 ^ (-(53 : ℤ)) :=
        mul_le_mul_of_nonneg_right hle (zpow_pos (by norm_num) _).le

lemma fl_zero : fl 0 = 0 := by
  rw [fl, if_pos rfl]

lemma fl_of_pos {q : ℚ} (hq : 0 < q) : fl q = flPos q := by
  rw [fl, if_neg hq.ne', if_neg (not_lt.mpr hq.le)]

lemma fl_error_pos {q : ℚ} (hq : 0 < q) : |fl q - q| ≤ q * 2 ^ (-(53 : ℤ)) := by
  rw [fl_of_pos hq]
  exact flPos_error hq

lemma two_zpow_neg53_lt_one : (2 : ℚ) ^ (-(53 : ℤ)) < 1 := by norm_num

lemma fl_pos {q : ℚ} (hq : 0 < q) : 0 < fl q := by
  have h := fl_error_pos hq
  rw [abs_le] at h
  nlinarith [h.1, two_zpow_neg53_lt_one, hq]

lemma fl_div_error {u nq : ℚ} (hu : 0 < u) (hn : 0 < nq) :
    |fl (fl u / nq) - u / nq| ≤ 3 * 2 ^ (-(53 : ℤ)) * (u / nq) := by
  have hε : (0 : ℚ) < 2 ^ (-(53 : ℤ)) := zpow_pos (by norm_num) _
  have e1 := fl_error_pos hu
  have hfu : 0 < fl u := fl_pos hu
  have e2 := fl_error_pos (div_pos hfu hn)
  have hfu2 : fl u ≤ 2 * u := by
    rw [abs_le] at e1
    nlinarith [e1.2, two_zpow_neg53_lt_one, hu]
  have hmid : |fl u / nq - u / nq| ≤ u * 2 ^ (-(53 : ℤ)) / nq := by
    rw [div_sub_div_same, abs_div, abs_of_pos hn]
    exact (div_le_div_iff_of_pos_right hn).mpr e1
  calc |fl (fl u / nq) - u / nq|
      ≤ |fl (fl u / nq) - fl u / nq| + |fl u / nq - u / nq| :=
        abs_sub_le _ _ _
    _ ≤ fl u / nq * 2 ^ (-(53 : ℤ)) + u * 2 ^ (-(53 : ℤ)) / nq := add_le_add e2 hmid
    _ ≤ 2 * u / nq * 2 ^ (-(53 : ℤ)) + u * 2 ^ (-(53 : ℤ)) / nq := by
        have hdiv : fl u / nq ≤ 2 * u / nq := (div_le_div_iff_of_pos_right hn).mpr hfu2
        exact add_le_add_right (mul_le_mul_of_nonneg_right hdiv hε.le) _
    _ = 3 * 2 ^ (-(53 : ℤ)) * (u / nq) := by ring

lemma flPos_rep (m : ℤ) (e : ℤ) (h1 : (4503599627370496 : ℤ) ≤ m)
    (h2 : m < 9007199254740992) : flPos ((m : ℚ) * 2 ^ e) = (m : ℚ) * 2 ^ e := by
  have hm0 : (0 : ℚ) < (m : ℚ) := by exact_mod_cast (by omega : (0 : ℤ) < m)
  have hpe : (0 : ℚ) < (2 : ℚ) ^ e := zpow_pos (by norm_num) _
  have hq : (0 : ℚ) < (m : ℚ) * 2 ^ e := mul_pos hm0 hpe
  have hm1 : (4503599627370496 : ℚ) ≤ (m : ℚ) := by exact_mod_cast h1
  have hm2 : (m : ℚ) < 9007199254740992 := by exact_mod_cast h2
  have hlog : Int.log 2 ((m : ℚ) * 2 ^ e) = e + 52 := by
    apply int_log2_eq hq
    · rw [zpow_add₀ (two_ne_zero (α := ℚ))]
      have h52 : (2 : ℚ) ^ (52 : ℤ) = 4503599627370496 := by norm_num
      rw [h52]
      nlinarith [hpe, hm1]
    · rw [show e + 52 + 1 = e + 53 from by ring, zpow_add₀ (two_ne_zero (α := ℚ))]
      have h53 : (2 : ℚ) ^ (53 : ℤ) = 9007199254740992 := by norm_num
      rw [h53]
      nlinarith [hpe, hm2]
  rw [flPos, hlog, show e + 52 - 52 = e from by ring,
    mul_div_cancel_right₀ _ (ne_of_gt hpe), roundHalfEven_intCast]

lemma fl_one : fl (1 : ℚ) = 1 := by
  have hval : ((4503599627370496 : ℤ) : ℚ) * 2 ^ (-(52 : ℤ)) = 1 := by norm_num
  rw [fl_of_pos one_pos, ← hval]
  exact flPos_rep _ _ le_rfl (by norm_num)

lemma fl_third : fl ((1 : ℚ) / 3) = ((6004799503160661 : ℤ) : ℚ) * 2 ^ (-(54 : ℤ)) := by
  have h3 : (0 : ℚ) < 1 / 3 := by norm_num
  have hlog : Int.log 2 ((1 : ℚ) / 3) = -2 :=
    int_log2_eq h3 (by norm_num) (by norm_num)
  rw [fl_of_pos h3, flPos, hlog, show (-2 : ℤ) - 52 = -(54 : ℤ) from by ring]
  have harg : (1 : ℚ) / 3 / 2 ^ (-(54 : ℤ)) = 18014398509481984 / 3 := by norm_num
  rw [harg]
  have hfl : ⌊(18014398509481984 : ℚ) / 3⌋ = 6004799503160661 := by
    rw [Int.floor_eq_iff]
    constructor <;> norm_num
  rw [roundHalfEven, hfl]
  norm_num

lemma fl_rep_third :
    fl (((6004799503160661 : ℤ) : ℚ) * 2 ^ (-(54 : ℤ)))
      = ((6004799503160661 : ℤ) : ℚ) * 2 ^ (-(54 : ℤ)) := by
  have hq : (0 : ℚ) < ((6004799503160661 : ℤ) : ℚ) * 2 ^ (-(54 : ℤ)) :=
    mul_pos (by norm_num) (zpow_pos (by norm_num) _)
  rw [fl_of_pos hq]
  exact flPos_rep _ _ (by norm_num) (by norm_num)

lemma divide_bbox_ideal_partition (b : BBoxQ) (n : ℤ) (hn : 1 ≤ n)
    (hx : b.x0 < b.x1) (hy : b.y0 < b.y1) :
    (divide_bbox_ideal b n).length = n.toNat * n.toNat ∧
    (∀ c ∈ divide_bbox_ideal b n, c.x1 - c.x0 = (b.x1 - b.x0) / (n : ℚ) ∧
      c.y1 - c.y0 = (b.y1 - b.y0) / (n : ℚ)) ∧
    (∀ c ∈ divide_bbox_ideal b n,
      b.x0 ≤ c.x0 ∧ c.x1 ≤ b.x1 ∧ b.y0 ≤ c.y0 ∧ c.y1 ≤ b.y1) ∧
    (∀ p : ℚ × ℚ, b.x0 ≤ p.1 → p.1 ≤ b.x1 → b.y0 ≤ p.2 → p.2 ≤ b.y1 →
      ∃ c ∈ divide_bbox_ideal b n,
        c.x0 ≤ p.1 ∧ p.1 ≤ c.x1 ∧ c.y0 ≤ p.2 ∧ p.2 ≤ c.y1) ∧
    (∀ c1 ∈ divide_bbox_ideal b n, ∀ c2 ∈ divide_bbox_ideal b n, c1 ≠ c2 →
      ∀ p : ℚ × ℚ,
      ¬((c1.x0 < p.1 ∧ p.1 < c1.x1 ∧ c1.y0 < p.2 ∧ p.2 < c1.y1) ∧
        (c2.x0 < p.1 ∧ p.1 < c2.x1 ∧ c2.y0 < p.2 ∧ p.2 < c2.y1))) := by
  have hnQ : (0 : ℚ) < (n : ℚ) := by exact_mod_cast (by omega : (0 : ℤ) < n)
  have hdx0 : 0 < (b.x1 - b.x0) / (n : ℚ) := div_pos (by linarith) hnQ
  have hdy0 : 0 < (b.y1 - b.y0) / (n : ℚ) := div_pos (by linarith) hnQ
  have hndx : (n : ℚ) * ((b.x1 - b.x0) / (n : ℚ)) = b.x1 - b.x0 :=
    mul_div_cancel₀ _ (ne_of_gt hnQ)
  have hndy : (n : ℚ) * ((b.y1 - b.y0) / (n : ℚ)) = b.y1 - b.y0 :=
    mul_div_cancel₀ _ (ne_of_gt hnQ)
  refine ⟨length_sq_flatMap n _, ?_, ?_, ?_, ?_⟩
  · intro c hc
    rw [divide_bbox_ideal, mem_sq_flatMap] at hc
    obtain ⟨i, j, _, _, rfl⟩ := hc
    constructor <;> simp [cellAt]
  · intro c hc
    rw [divide_bbox_ideal, mem_sq_flatMap] at hc
    obtain ⟨i, j, ⟨hi0, hi1⟩, ⟨hj0, hj1⟩, rfl⟩ := hc
    have hi0Q : (0 : ℚ) ≤ (i : ℚ) := by exact_mod_cast hi0
    have hj0Q : (0 : ℚ) ≤ (j : ℚ) := by exact_mod_cast hj0
    have hi1Q : (i : ℚ) + 1 ≤ (n : ℚ) := by exact_mod_cast hi1
    have hj1Q : (j : ℚ) + 1 ≤ (n : ℚ) := by exact_mod_cast hj1
    have h1 := mul_le_mul_of_nonneg_right hi1Q hdx0.le
    have h2 := mul_le_mul_of_nonneg_right hj1Q hdy0.le
    have h3 := mul_nonneg hi0Q hdx0.le
    have h4 := mul_nonneg hj0Q hdy0.le
    simp only [cellAt]
    refine ⟨by linarith, by nlinarith, by linarith, by nlinarith⟩
  · intro p h1 h2 h3 h4
    obtain ⟨i, hi0, hi1, hil, hiu⟩ := cover1d b.x0 b.x1 p.1 n hn hx h1 h2
    obtain ⟨j, hj0, hj1, hjl, hju⟩ := cover1d b.y0 b.y1 p.2 n hn hy h3 h4
    refine ⟨cellAt b ((b.x1 - b.x0) / (n : ℚ)) ((b.y1 - b.y0) / (n : ℚ)) i j, ?_, ?_⟩
    · rw [divide_bbox_ideal, mem_sq_flatMap]
      exact ⟨i, j, ⟨hi0, hi1⟩, ⟨hj0, hj1⟩, rfl⟩
    · exact ⟨hil, hiu, hjl, hju⟩
  · intro c1 hc1 c2 hc2 hne p
    rw [divide_bbox_ideal, mem_sq_flatMap] at hc1 hc2
    obtain ⟨i1, j1, ⟨hi10, hi11⟩, ⟨hj10, hj11⟩, rfl⟩ := hc1
    obtain ⟨i2, j2, ⟨hi20, hi21⟩, ⟨hj20, hj21⟩, rfl⟩ := hc2
    rintro ⟨⟨a1, a2, a3, a4⟩, ⟨b1, b2, b3, b4⟩⟩
    simp only [cellAt] at a1 a2 a3 a4 b1 b2 b3 b4
    have hij : i1 ≠ i2 ∨ j1 ≠ j2 := by
      by_contra h
      push_neg at h
      exact hne (by rw [h.1, h.2])
    have key : ∀ u v : ℤ, ∀ d z0 q : ℚ, 0 < d → u < v →
        q < z0 + (u : ℚ) * d + d → z0 + (v : ℚ) * d < q → False := by
      intro u v d z0 q hd huv hq1 hq2
      have huvQ : (u : ℚ) + 1 ≤ (v : ℚ) := by exact_mod_cast huv
      have := mul_le_mul_of_nonneg_right huvQ hd.le
      nlinarith
    rcases hij with h | h
    · rcases lt_or_gt_of_ne h with hlt | hlt
      · exact key i1 i2 _ _ _ hdx0 hlt a2 b1
      · exact key i2 i1 _ _ _ hdx0 hlt b2 a1
    · rcases lt_or_gt_of_ne h with hlt | hlt
      · exact key j1 j2 _ _ _ hdy0 hlt a4 b3
      · exact key j2 j1 _ _ _ hdy0 hlt b4 a3

/-! ### Claim C4 -/

/-- Claim C4 counterexample: at the unit box and `n = 3` the program
computes `dx = fl(fl(1-0)/3) = fl(1/3) = 6004799503160661 / 2^54`, so
the first computed cell `[0, 0, fl(0+dx), ...]` has x-width
`fl(1/3) ≠ 1/3`: the claim "each cell has width `(maxX-minX)/n`" (and
with it exact cover and zero overlap of the computed cells) is false
of the binary64 code. -/
theorem float_cell_width_not_exact_cex :
    ∃ cs, divide_bbox ⟨0, 0, 1, 1⟩ 3 = some cs ∧ cs.length = 3 * 3 ∧
      ∃ c ∈ cs, c.x1 - c.x0 ≠ ((1 : ℚ) - 0) / ((3 : ℤ) : ℚ) := by
  refine ⟨_, by rw [divide_bbox, if_neg (by norm_num)], length_sq_flatMap 3 _, ?_⟩
  refine ⟨cellAtF ⟨0, 0, 1, 1⟩ (fl (fl ((1 : ℚ) - 0) / ((3 : ℤ) : ℚ)))
    (fl (fl ((1 : ℚ) - 0) / ((3 : ℤ) : ℚ))) 0 0, ?_, ?_⟩
  · exact mem_sq_flatMap.mpr ⟨0, 0, ⟨le_refl 0, by norm_num⟩, ⟨le_refl 0, by norm_num⟩, rfl⟩
  · have hdx : fl (fl ((1 : ℚ) - 0) / ((3 : ℤ) : ℚ))
        = ((6004799503160661 : ℤ) : ℚ) * 2 ^ (-(54 : ℤ)) := by
      rw [show ((1 : ℚ) - 0) = 1 from by ring, fl_one,
        show ((3 : ℤ) : ℚ) = 3 from by norm_num]
      exact fl_third
    simp only [cellAtF]
    rw [show ((0 : ℤ) : ℚ) = 0 from by norm_num, zero_mul, fl_zero]
    rw [add_zero, fl_zero, zero_add, hdx, fl_rep_third]
    norm_num

/-- Claim C4 (amended): for every bounding box with `minX < maxX`,
`minY < maxY` and every integer `n ≥ 1`, `divide_bbox` returns exactly
`n²` cells; the computed cells follow the exact partition formula with
every binary64 operation correctly rounded, and the computed steps
`dx`, `dy` lie within relative error `3·2⁻⁵³` of the exact
`(maxX-minX)/n` and `(maxY-minY)/n`.  The exact width, exact cover and
zero-overlap properties hold for the infinitely-precise counterparts
of the cells (`divide_bbox_ideal`), not for the computed float cells
(whose width is e.g. `fl(1/3) ≠ 1/3` on the unit box with `n = 3`). -/
theorem divide_bbox_partition_up_to_rounding (b : BBoxQ) (n : ℤ) (hn : 1 ≤ n)
    (hx : b.x0 < b.x1) (hy : b.y0 < b.y1) :
    ∃ cs, divide_bbox b n = some cs ∧
      cs.length = n.toNat * n.toNat ∧
      (∀ c ∈ cs, ∃ i j : ℤ, (0 ≤ i ∧ i < n) ∧ (0 ≤ j ∧ j < n) ∧
        c = cellAtF b (fl (fl (b.x1 - b.x0) / (n : ℚ)))
          (fl (fl (b.y1 - b.y0) / (n : ℚ))) i j) ∧
      |fl (fl (b.x1 - b.x0) / (n : ℚ)) - (b.x1 - b.x0) / (n : ℚ)|
        ≤ 3 * 2 ^ (-(53 : ℤ)) * ((b.x1 - b.x0) / (n : ℚ)) ∧
      |fl (fl (b.y1 - b.y0) / (n : ℚ)) - (b.y1 - b.y0) / (n : ℚ)|
        ≤ 3 * 2 ^ (-(53 : ℤ)) * ((b.y1 - b.y0) / (n : ℚ)) ∧
      (divide_bbox_ideal b n).length = n.toNat * n.toNat ∧
      (∀ c ∈ divide_bbox_ideal b n, c.x1 - c.x0 = (b.x1 - b.x0) / (n : ℚ) ∧
        c.y1 - c.y0 = (b.y1 - b.y0) / (n : ℚ)) ∧
      (∀ c ∈ divide_bbox_ideal b n,
        b.x0 ≤ c.x0 ∧ c.x1 ≤ b.x1 ∧ b.y0 ≤ c.y0 ∧ c.y1 ≤ b.y1) ∧
      (∀ p : ℚ × ℚ, b.x0 ≤ p.1 → p.1 ≤ b.x1 → b.y0 ≤ p.2 → p.2 ≤ b.y1 →
        ∃ c ∈ divide_bbox_ideal b n,
          c.x0 ≤ p.1 ∧ p.1 ≤ c.x1 ∧ c.y0 ≤ p.2 ∧ p.2 ≤ c.y1) ∧
      (∀ c1 ∈ divide_bbox_ideal b n, ∀ c2 ∈ divide_bbox_ideal b n, c1 ≠ c2 →
        ∀ p : ℚ × ℚ,
        ¬((c1.x0 < p.1 ∧ p.1 < c1.x1 ∧ c1.y0 < p.2 ∧ p.2 < c1.y1) ∧
          (c2.x0 < p.1 ∧ p.1 < c2.x1 ∧ c2.y0 < p.2 ∧ p.2 < c2.y1))) := by
  obtain ⟨hl, hw, hcont, hcover, hdisj⟩ := divide_bbox_ideal_partition b n hn hx hy
  have hnQ : (0 : ℚ) < (n : ℚ) := by exact_mod_cast (by omega : (0 : ℤ) < n)
  refine ⟨_, by rw [divide_bbox, if_neg (by omega)], length_sq_flatMap n _, ?_, ?_, ?_,
    hl, hw, hcont, hcover, hdisj⟩
  · intro c hc
    rw [mem_sq_flatMap] at hc
    exact hc
  · exact fl_div_error (by linarith) hnQ
  · exact fl_div_error (by linarith) hnQ

theorem divide_bbox_partition_up_to_rounding_witness :
    ∃ cs, divide_bbox ⟨0, 0, 1, 1⟩ 2 = some cs ∧
      cs.length = (2 : ℤ).toNat * (2 : ℤ).toNat ∧
      (∀ c ∈ cs, ∃ i j : ℤ, (0 ≤ i ∧ i < 2) ∧ (0 ≤ j ∧ j < 2) ∧
        c = cellAtF ⟨0, 0, 1, 1⟩ (fl (fl ((1 : ℚ) - 0) / ((2 : ℤ) : ℚ)))
          (fl (fl ((1 : ℚ) - 0) / ((2 : ℤ) : ℚ))) i j) ∧
      |fl (fl ((1 : ℚ) - 0) / ((2 : ℤ) : ℚ)) - ((1 : ℚ) - 0) / ((2 : ℤ) : ℚ)|
        ≤ 3 * 2 ^ (-(53 : ℤ)) * (((1 : ℚ) - 0) / ((2 : ℤ) : ℚ)) ∧
      |fl (fl ((1 : ℚ) - 0) / ((2 : ℤ) : ℚ)) - ((1 : ℚ) - 0) / ((2 : ℤ) : ℚ)|
        ≤ 3 * 2 ^ (-(53 : ℤ)) * (((1 : ℚ) - 0) / ((2 : ℤ) : ℚ)) ∧
      (divide_bbox_ideal ⟨0, 0, 1, 1⟩ 2).length = (2 : ℤ).toNat * (2 : ℤ).toNat ∧
      (∀ c ∈ divide_bbox_ideal ⟨0, 0, 1, 1⟩ 2,
        c.x1 - c.x0 = ((1 : ℚ) - 0) / ((2 : ℤ) : ℚ) ∧
        c.y1 - c.y0 = ((1 : ℚ) - 0) / ((2 : ℤ) : ℚ)) ∧
      (∀ c ∈ divide_bbox_ideal ⟨0, 0, 1, 1⟩ 2,
        (0 : ℚ) ≤ c.x0 ∧ c.x1 ≤ 1 ∧ (0 : ℚ) ≤ c.y0 ∧ c.y1 ≤ 1) ∧
      (∀ p : ℚ × ℚ, (0 : ℚ) ≤ p.1 → p.1 ≤ 1 → (0 : ℚ) ≤ p.2 → p.2 ≤ 1 →
        ∃ c ∈ divide_bbox_ideal ⟨0, 0, 1, 1⟩ 2,
          c.x0 ≤ p.1 ∧ p.1 ≤ c.x1 ∧ c.y0 ≤ p.2 ∧ p.2 ≤ c.y1) ∧
      (∀ c1 ∈ divide_bbox_ideal ⟨0, 0, 1, 1⟩ 2,
        ∀ c2 ∈ divide_bbox_ideal ⟨0, 0, 1, 1⟩ 2, c1 ≠ c2 → ∀ p : ℚ × ℚ,
        ¬((c1.x0 < p.1 ∧ p.1 < c1.x1 ∧ c1.y0 < p.2 ∧ p.2 < c1.y1) ∧
          (c2.x0 < p.1 ∧ p.1 < c2.x1 ∧ c2.y0 < p.2 ∧ p.2 < c2.y1))) :=
  divide_bbox_partition_up_to_rounding ⟨0, 0, 1, 1⟩ 2 (by norm_num) (by norm_num)
    (by norm_num)

/-! ### Claim C10 -/

/-- Claim C10: if the cell's accumulated result contains zero rows, the
post-processing of `collectData` returns it unchanged: no sorting, no
deduplication, and no derived columns (`dateupload` rewrite,
`year`/`month`/`day`) are added. -/
theorem empty_cell_result_unprocessed (fmt : Nat → String) (rows : List Row)
    (h : rows.length = 0) : postProcess fmt rows = CellResult.raw rows := by
  simp [postProcess, h]

theorem empty_cell_result_unprocessed_witness :
    postProcess (fun _ => "ts") [] = CellResult.raw [] :=
  empty_cell_result_unprocessed (fun _ => "ts") [] rfl

/-! ### Claim C8 -/

/-- Claim C8 counterexample: shrinking a 10-day window width produces a
width of 734400000000 microseconds = 8.5 days, which is not a whole
number of days, and differs from the whole-day truncation 8 days of
`10 * 0.85`; the claim "after every resize step the width is a whole
number of days" is false on the code. -/
theorem shrink_width_not_whole_days_cex :
    (reduceTimeStepAndSetNewBatchDates ⟨100, 0, 10, 10 * usPerDay, 5000⟩).delta
      = 734400000000 ∧
    (734400000000 : Int) % 86400000000 ≠ 0 ∧
    (734400000000 : Int) ≠ 8 * 86400000000 := by decide

/-- Claim C8 (amended): a resize multiplies the width by the exact
binary64 value of 0.85 (`7656119366529843 / 2^53`) or of 1.25 (`5/4`)
and rounds to whole **microseconds** (half to even), not to whole
days: the new width is within half a microsecond of the exact product,
and only the window end dates are re-anchored at whole-day (floored)
granularity. -/
theorem resize_width_microsecond_rounding (s : St) :
    |2 * ((reduceTimeStepAndSetNewBatchDates s).delta * 9007199254740992
        - s.delta * 7656119366529843)| ≤ 9007199254740992 ∧
    |2 * ((increaseTimeStepAndSetNewBatchDates s).delta * 4 - s.delta * 5)| ≤ 4 ∧
    (reduceTimeStepAndSetNewBatchDates s).batchEnd
      = s.batchStart + tdDays (reduceTimeStepAndSetNewBatchDates s).delta ∧
    (increaseTimeStepAndSetNewBatchDates s).batchEnd
      = s.batchStart + tdDays (increaseTimeStepAndSetNewBatchDates s).delta := by
  refine ⟨?_, ?_, rfl, rfl⟩
  · simpa [reduceTimeStepAndSetNewBatchDates, floatMul85] using
      divRound_half (s.delta * 7656119366529843) 9007199254740992 (by norm_num)
  · simpa [increaseTimeStepAndSetNewBatchDates, floatMul125] using
      divRound_half (s.delta * 5) 4 (by norm_num)

/-! ### Claim C9 -/

/-- Claim C9 counterexample: the segment count −1 (which is `< 1`) is
not rejected with any input error: `divide_bbox` silently returns an
empty cell list. -/
theorem negative_segments_not_rejected_cex :
    divide_bbox ⟨0, 0, 1, 1⟩ (-1) = some [] ∧ (-1 : ℤ) < 1 := by
  constructor
  · rfl
  · decide

/-- Claim C9 (amended): `divide_bbox` performs no input validation and
raises no `PartitionInputError`: a segment count of 0 crashes with
`ZeroDivisionError` (modelled as `none`), a negative segment count
silently yields an empty cell list, and a positive segment count
always succeeds with `n²` cells (no failure modes there). -/
theorem divide_bbox_no_validation (b : BBoxQ) (n : ℤ) :
    (n = 0 → divide_bbox b n = none) ∧
    (n < 0 → divide_bbox b n = some []) ∧
    (0 < n → ∃ cs, divide_bbox b n = some cs ∧ cs.length = n.toNat * n.toNat) := by
  refine ⟨fun h => by simp [divide_bbox, h], fun h => ?_, fun h => divide_bbox_length h⟩
  rw [divide_bbox, if_neg (by omega), intRange_nonpos h.le]
  rfl

theorem divide_bbox_no_validation_witness :
    divide_bbox ⟨0, 0, 1, 1⟩ (-1) = some [] ∧ divide_bbox ⟨0, 0, 1, 1⟩ 0 = none :=
  ⟨(divide_bbox_no_validation ⟨0, 0, 1, 1⟩ (-1)).2.1 (by norm_num),
   (divide_bbox_no_validation ⟨0, 0, 1, 1⟩ 0).1 rfl⟩

/-! ### Claim C5 -/

/-- Claim C5: for every stubbed API and total count, `searchPhotos`
computes `pages = ceil(totalCount / 250)` (characterized by
`total ≤ 250 * pages < total + 250`), issues exactly the page requests
`1, ..., pages` in ascending order, each with page size 250, and
returns the rows of all pages concatenated in ascending page order. -/
theorem searchPhotos_pagination_correct (api : PageReq → List Row) (total : Nat) :
    (searchPhotos api total).1.length = (total + 249) / 250 ∧
    total ≤ 250 * (searchPhotos api total).1.length ∧
    250 * (searchPhotos api total).1.length < total + 250 ∧
    (searchPhotos api total).1.map PageReq.page
      = List.range' 1 ((total + 249) / 250) ∧
    (∀ r ∈ (searchPhotos api total).1, r.per_page = 250) ∧
    List.Chain' (fun p q => p < q) ((searchPhotos api total).1.map PageReq.page) ∧
    (searchPhotos api total).2
      = (List.range' 1 ((total + 249) / 250)).flatMap (fun p => api ⟨p, 250⟩) := by
  have hlen : (searchPhotos api total).1.length = (total + 249) / 250 := by
    simp [searchPhotos]
  have hmap : (searchPhotos api total).1.map PageReq.page
      = List.range' 1 ((total + 249) / 250) := by
    rw [searchPhotos]
    simp only [List.map_map]
    have : PageReq.page ∘ getDataReq = id := rfl
    rw [this, List.map_id]
  refine ⟨hlen, by omega, by omega, hmap, ?_, ?_, ?_⟩
  · intro r hr
    rw [searchPhotos] at hr
    simp only [List.mem_map] at hr
    obtain ⟨p, _, rfl⟩ := hr
    rfl
  · rw [hmap]
    exact (List.pairwise_lt_range' 1 _ 1).chain'
  · rw [searchPhotos]
    simp only [List.flatMap_map]
    rfl

/-! ### Claim C1 -/

/-- Claim C1: over any run of `collectData` against a deterministic
per-window count stub, `searchPhotos` is fetched for a window only
with the window's (most recent) probed count, and that count is at
most 4000: no fetch ever occurs for a window whose probed count
exceeds 4000. -/
theorem fetch_only_within_cap (probe : Int → Int → Nat)
    (fp : Int → Int → PageReq → List Row) (fmt : Nat → String)
    (fuel sf : Nat) (d0 d1 : Int) (a b : Int) (c : Nat)
    (hm : Ev.fetchE a b c ∈ (collectData probe fp fmt fuel sf d0 d1).1) :
    c = probe a b ∧ c ≤ 4000 := by
  simp only [collectData, List.mem_cons] at hm
  rcases hm with hm | hm
  · exact absurd hm (by simp)
  · refine loopRun_fetch_inv probe fp fuel sf _ a b c ?_ hm
    rfl

theorem fetch_only_within_cap_witness :
    3500 = (fun _ _ => 3500 : Int → Int → Nat) 0 100 ∧ 3500 ≤ 4000 :=
  fetch_only_within_cap (fun _ _ => 3500) (fun _ _ _ => []) (fun _ => "") 3 3 0 100
    0 100 3500 (by decide)

/-! ### Claim C2 -/

/-- Claim C2 counterexample: in the run over the range `(0, 100)` with
constant probed count 3500 (width 100 days), the ADVANCING step after
the first fetched window `[0, 100)` produces the window `(99, 200)`,
whose end 200 differs from `nextStart + width = 99 + 100 = 199`: the
claim `nextEnd = nextStart + width` is false on the code. -/
theorem advance_end_not_start_plus_width_cex :
    Ev.advanceE 0 100 (100 * usPerDay) 99 200
      ∈ (collectData (fun _ _ => 3500) (fun _ _ _ => []) (fun _ => "") 3 3 0 100).1 ∧
    (200 : Int) ≠ 99 + tdDays (100 * usPerDay) := by decide

/-- Claim C2 (amended): after every ADVANCING step with previous
window `(pa, pb)` and current width `d`, the next window is
`nextStart = pb − 1 day` and `nextEnd = pb + days(d)`, i.e.
`nextEnd = nextStart + days(d) + 1 day` — one day longer than the
claimed `nextStart + width` (the code adds the width to the previous
end, not to the new start). -/
theorem advance_window_shape (probe : Int → Int → Nat)
    (fp : Int → Int → PageReq → List Row) (fmt : Nat → String)
    (fuel sf : Nat) (d0 d1 : Int) (pa pb d na nb : Int)
    (hm : Ev.advanceE pa pb d na nb ∈ (collectData probe fp fmt fuel sf d0 d1).1) :
    na = pb - 1 ∧ nb = pb + tdDays d ∧ nb = na + tdDays d + 1 := by
  simp only [collectData, List.mem_cons] at hm
  rcases hm with hm | hm
  · exact absurd hm (by simp)
  · obtain ⟨h1, h2⟩ := loopRun_advance_shape probe fp fuel sf _ pa pb d na nb hm
    exact ⟨h1, h2, by omega⟩

theorem advance_window_shape_witness :
    (99 : Int) = 100 - 1 ∧ (200 : Int) = 100 + tdDays (100 * usPerDay) ∧
      (200 : Int) = 99 + tdDays (100 * usPerDay) + 1 :=
  advance_window_shape (fun _ _ => 3500) (fun _ _ _ => []) (fun _ => "") 3 3 0 100
    0 100 (100 * usPerDay) 99 200 (by decide)

/-! ### Claim C3 -/

/-- Claim C3 counterexample: with a probed count of exactly 3000
(which lies in `(0, 3000]`), the growth step does not fire at all —
the run's trace holds a probe and a fetch at count 3000 and no grow
event (`batch_obs < 3000` is strict in the code). -/
theorem no_growth_at_count_3000_cex :
    (collectData (fun _ _ => 3000) (fun _ _ _ => []) (fun _ => "") 1 1 0 10).1.countP
      Ev.isGrow = 0 ∧
    Ev.probeE 0 10 3000
      ∈ (collectData (fun _ _ => 3000) (fun _ _ _ => []) (fun _ => "") 1 1 0 10).1 ∧
    Ev.fetchE 0 10 3000
      ∈ (collectData (fun _ _ => 3000) (fun _ _ _ => []) (fun _ => "") 1 1 0 10).1 ∧
    0 < 3000 ∧ 3000 ≤ 3000 := by decide

/-- Claim C3 (amended): in an iteration whose probed count `c`
satisfies `0 < c < 3000` (strictly below 3000), the growth step fires
exactly once before the fetch: exactly one grow event and one re-probe
are emitted, the width is multiplied by 1.25, the window is
re-anchored to `[currentStart, currentStart + days(newWidth))`, and
the subsequent shrink loop emits no grow event, so growth is never
repeated within the iteration regardless of the re-probed count. -/
theorem growth_fires_once_strict_band (probe : Int → Int → Nat) (sf : Nat) (s : St)
    (h1 : 0 < s.obs) (h2 : s.obs < 3000) :
    (growPhase probe s).1.countP Ev.isGrow = 1 ∧
    (growPhase probe s).1.countP Ev.isProbe = 1 ∧
    (growPhase probe s).2.delta = floatMul125 s.delta ∧
    (growPhase probe s).2.batchStart = s.batchStart ∧
    (growPhase probe s).2.batchEnd = s.batchStart + tdDays (floatMul125 s.delta) ∧
    (growPhase probe s).2.obs
      = probe s.batchStart (s.batchStart + tdDays (floatMul125 s.delta)) ∧
    (shrinkLoop probe sf (growPhase probe s).2).1.countP Ev.isGrow = 0 := by
  have hcond : s.obs < 3000 ∧ s.obs > 0 := ⟨h2, h1⟩
  refine ⟨?_, ?_, ?_, ?_, ?_, ?_, ?_⟩
  · rw [growPhase, if_pos hcond]
    simp [List.countP_cons, Ev.isGrow, Ev.isProbe]
  · rw [growPhase, if_pos hcond]
    simp [List.countP_cons, Ev.isGrow, Ev.isProbe]
  · rw [growPhase, if_pos hcond]
    rfl
  · rw [growPhase, if_pos hcond]
    rfl
  · rw [growPhase, if_pos hcond]
    rfl
  · rw [growPhase, if_pos hcond]
    rfl
  · rw [List.countP_eq_zero]
    intro e he
    have := (shrinkLoop_events probe sf (growPhase probe s).2 e he).2.2.2
    simp [this]

theorem growth_fires_once_strict_band_witness :
    (growPhase (fun _ _ => 3500) ⟨100, 0, 10, 10 * usPerDay, 1000⟩).1.countP
      Ev.isGrow = 1 ∧
    (growPhase (fun _ _ => 3500) ⟨100, 0, 10, 10 * usPerDay, 1000⟩).1.countP
      Ev.isProbe = 1 ∧
    (growPhase (fun _ _ => 3500) ⟨100, 0, 10, 10 * usPerDay, 1000⟩).2.delta
      = floatMul125 (10 * usPerDay) ∧
    (growPhase (fun _ _ => 3500) ⟨100, 0, 10, 10 * usPerDay, 1000⟩).2.batchStart = 0 ∧
    (growPhase (fun _ _ => 3500) ⟨100, 0, 10, 10 * usPerDay, 1000⟩).2.batchEnd
      = 0 + tdDays (floatMul125 (10 * usPerDay)) ∧
    (growPhase (fun _ _ => 3500) ⟨100, 0, 10, 10 * usPerDay, 1000⟩).2.obs
      = (fun _ _ => 3500 : Int → Int → Nat) 0
          (0 + tdDays (floatMul125 (10 * usPerDay))) ∧
    (shrinkLoop (fun _ _ => 3500) 2
      (growPhase (fun _ _ => 3500) ⟨100, 0, 10, 10 * usPerDay, 1000⟩).2).1.countP
      Ev.isGrow = 0 :=
  growth_fires_once_strict_band (fun _ _ => 3500) 2 ⟨100, 0, 10, 10 * usPerDay, 1000⟩
    (by decide) (by decide)

/-! ### Claim C6 -/

/-- Claim C6: in every run of `collectData`, the fetched windows, in
order, satisfy the no-gap property: for consecutive fetched windows
`[a, b)` then `[c, d)`, `c ≤ b` (the ADVANCING step starts the next
window one day before the previous end, and resizes never move the
window start). -/
theorem consecutive_fetch_windows_overlap (probe : Int → Int → Nat)
    (fp : Int → Int → PageReq → List Row) (fmt : Nat → String)
    (fuel sf : Nat) (d0 d1 : Int) :
    List.Chain' (fun p q : Int × Int × Nat => q.1 ≤ p.2.1)
      (fetchList (collectData probe fp fmt fuel sf d0 d1).1) := by
  have h : fetchList (collectData probe fp fmt fuel sf d0 d1).1
      = fetchList (loopRun probe fp fuel sf
          ⟨d1, d0, d1, (d1 - d0) * usPerDay, probe d0 d1⟩).1 := rfl
  rw [h]
  exact loopRun_fetch_chain probe fp fuel sf _

/-! ### Claim C7 -/

/-- Claim C7: when the count stub reports 0 for every window, the
controller terminates right after the first probe: the run completes
(reaches its `break`, via the `batch_obs == 0` disjunct of the exit
condition `dates_batch[0] > dates_abs[1] or batch_obs == 0` embedded
in `loopRun`), exactly one probe and no page requests are issued, and
the returned `ResultSet` is empty (and unprocessed). -/
theorem zero_count_terminates_empty (fp : Int → Int → PageReq → List Row)
    (fmt : Nat → String) (fuel sf : Nat) (d0 d1 : Int) (hf : 1 ≤ fuel) :
    (collectData (fun _ _ => 0) fp fmt fuel sf d0 d1).2 = some (CellResult.raw []) ∧
    (collectData (fun _ _ => 0) fp fmt fuel sf d0 d1).1.countP Ev.isPage = 0 ∧
    (collectData (fun _ _ => 0) fp fmt fuel sf d0 d1).1.countP Ev.isProbe = 1 ∧
    (collectData (fun _ _ => 0) fp fmt fuel sf d0 d1).1.countP Ev.isFetch = 1 := by
  obtain ⟨k, rfl⟩ : ∃ k, fuel = k + 1 := ⟨fuel - 1, by omega⟩
  have hg : growPhase (fun _ _ => 0) ⟨d1, d0, d1, (d1 - d0) * usPerDay, 0⟩
      = ([], ⟨d1, d0, d1, (d1 - d0) * usPerDay, 0⟩) := by
    rw [growPhase, if_neg (by simp)]
  have hs : shrinkLoop (fun _ _ => 0) sf
      (growPhase (fun _ _ => 0) ⟨d1, d0, d1, (d1 - d0) * usPerDay, 0⟩).2
      = ([], some ⟨d1, d0, d1, (d1 - d0) * usPerDay, 0⟩) := by
    rw [hg]
    exact shrinkLoop_not_high (fun _ _ => 0) sf _ (by simp)
  have hrun := loopRun_succ_break (fun _ _ => 0) fp k sf
    ⟨d1, d0, d1, (d1 - d0) * usPerDay, 0⟩ [] ⟨d1, d0, d1, (d1 - d0) * usPerDay, 0⟩
    hs (Or.inr rfl)
  have hcd : collectData (fun _ _ => 0) fp fmt (k + 1) sf d0 d1
      = (Ev.probeE d0 d1 0 ::
          (loopRun (fun _ _ => 0) fp (k + 1) sf
            ⟨d1, d0, d1, (d1 - d0) * usPerDay, 0⟩).1,
         (loopRun (fun _ _ => 0) fp (k + 1) sf
           ⟨d1, d0, d1, (d1 - d0) * usPerDay, 0⟩).2.map (postProcess fmt)) := rfl
  rw [hcd, hrun]
  simp [hg, searchPhotos, postProcess, Ev.isPage, Ev.isProbe, Ev.isFetch,
    List.countP_cons]

theorem zero_count_terminates_empty_witness :
    (collectData (fun _ _ => 0) (fun _ _ _ => []) (fun _ => "") 1 1 0 10).2
      = some (CellResult.raw []) ∧
    (collectData (fun _ _ => 0) (fun _ _ _ => []) (fun _ => "") 1 1 0 10).1.countP
      Ev.isPage = 0 ∧
    (collectData (fun _ _ => 0) (fun _ _ _ => []) (fun _ => "") 1 1 0 10).1.countP
      Ev.isProbe = 1 ∧
    (collectData (fun _ _ => 0) (fun _ _ _ => []) (fun _ => "") 1 1 0 10).1.countP
      Ev.isFetch = 1 :=
  zero_count_terminates_empty (fun _ _ _ => []) (fun _ => "") 1 1 0 10 (by decide)

end Flickr
